import Mathlib

/-!
Shallow embedding, in Lean 4, of the caching and path-resolution core of the
Tardis-Downloader repository (`src/tardis_data_downloader`), together with
theorems settling the behavioural claims of the specification.

The embedding covers:
* the date utilities (`utils/date_utils.py`): `to_date_string`,
  `validate_date_format`, `parse_date` (string branch) and `date_range`,
  including a faithful model of Python `strptime` for the three formats
  `%Y-%m-%d`, `%Y%m%d` and `%Y/%m/%d` (regex alternation order and
  backtracking included);
* `pathlib.PurePosixPath` joining, as used by `TardisDataManager.get_path`;
* the file-system-facing listings `list_dates` / `list_symbols` (over an
  abstract directory-contents oracle, since the real functions read the disk);
* `SimpleCache` and the cache-facing operations of `TardisApi`
  (`data/data_manager.py`).

Python `time.time()` returns a float; the only operations the code performs
on times are subtraction and order comparison against an integral TTL, so
times are modelled as integers (seconds), keeping every statement kernel-
decidable.  Python `dict` is modelled as an association list with unique keys;
insertion order is irrelevant to every property proved here.
-/

namespace TardisDL

/-- Calendar date (year, month, day): the model of `datetime.date`. -/
structure Date where
  y : Nat
  m : Nat
  d : Nat
deriving DecidableEq, Repr

/-- Gregorian leap-year rule (as used by Python's `datetime`). -/
def isLeap (y : Nat) : Bool :=
  (y % 4 == 0 && y % 100 != 0) || y % 400 == 0

/-- Number of days in a month of a given year. -/
def daysInMonth (y m : Nat) : Nat :=
  if m = 2 then (if isLeap y then 29 else 28)
  else if m = 4 ∨ m = 6 ∨ m = 9 ∨ m = 11 then 30
  else 31

/-- Validity of a (year, month, day) triple for `datetime.date(y, m, d)`:
Python accepts years 1..9999 and checks the day against the month length. -/
def isValidDate (y m d : Nat) : Bool :=
  decide (1 ≤ y ∧ y ≤ 9999 ∧ 1 ≤ m ∧ m ≤ 12 ∧ 1 ≤ d ∧ d ≤ daysInMonth y m)

/-- Zero-pad a number to two digits (Python `%02d`). -/
def pad2 (n : Nat) : String :=
  if n < 10 then "0" ++ toString n else toString n

/-- Zero-pad a number to four digits (Python `%04d`, as in `%Y`). -/
def pad4 (n : Nat) : String :=
  if n < 10 then "000" ++ toString n
  else if n < 100 then "00" ++ toString n
  else if n < 1000 then "0" ++ toString n
  else toString n

/-- `datetime.date.isoformat()` / `strftime('%Y-%m-%d')`. -/
def Date.iso (dt : Date) : String :=
  pad4 dt.y ++ "-" ++ pad2 dt.m ++ "-" ++ pad2 dt.d

/-- Strict lexicographic order on dates: the model of `datetime.date.__gt__`
(`start_date_parsed > end_date_parsed` is `Date.ltb end start`). -/
def Date.ltb (a b : Date) : Bool :=
  decide (a.y < b.y ∨ (a.y = b.y ∧ (a.m < b.m ∨ (a.m = b.m ∧ a.d < b.d))))

/-- The day after a given date (`date + timedelta(days=1)`). -/
def nextDay (dt : Date) : Date :=
  if dt.d < daysInMonth dt.y dt.m then ⟨dt.y, dt.m, dt.d + 1⟩
  else if dt.m < 12 then ⟨dt.y, dt.m + 1, 1⟩
  else ⟨dt.y + 1, 1, 1⟩

/-- Days-from-civil (proleptic Gregorian day ordinal, epoch 1970-01-01),
used to count the days spanned by a `pandas.date_range`. -/
def toRD (dt : Date) : Int :=
  let y : Int := if dt.m ≤ 2 then (dt.y : Int) - 1 else (dt.y : Int)
  let m : Int := (dt.m : Int)
  let d : Int := (dt.d : Int)
  let era : Int := (if 0 ≤ y then y else y - 399) / 400
  let yoe : Int := y - era * 400
  let mp : Int := (m + 9) % 12
  let doy : Int := (153 * mp + 2) / 5 + d - 1
  let doe : Int := yoe * 365 + yoe / 4 - yoe / 100 + doy
  era * 146097 + doe - 719468

/-- Advance a date by `n` days. -/
def addDays (dt : Date) (n : Nat) : Date :=
  Nat.iterate nextDay n dt

/-! ### Python `strptime`, restricted to the formats the repository uses

`datetime.strptime` compiles each format to a regular expression
(`%Y` is `\d\d\d\d`, `%m` is `1[0-2]|0[1-9]|[1-9]`, `%d` is
`3[01]|[12]\d|0[1-9]|[1-9]`), takes the first complete match in
backtracking order, and only then constructs the `date`, raising
`ValueError` either when the regex does not match the whole string or when
the matched numbers are not a valid calendar date.  The parsers below
reproduce the alternation order and the backtracking. -/

/-- Numeric value of a digit character. -/
def cval (c : Char) : Nat := c.toNat - 48

/-- `%Y`: exactly four digits. -/
def parseY4 : List Char → Option (Nat × List Char)
  | a :: b :: c :: d :: rest =>
    if a.isDigit && b.isDigit && c.isDigit && d.isDigit then
      some (1000 * cval a + 100 * cval b + 10 * cval c + cval d, rest)
    else none
  | _ => none

/-- `%m`: the match alternatives, in the regex order `1[0-2]|0[1-9]|[1-9]`. -/
def monthAlts : List Char → List (Nat × List Char)
  | [] => []
  | c :: rest =>
    if c = '1' then
      match rest with
      | c2 :: rest2 =>
        if c2 = '0' ∨ c2 = '1' ∨ c2 = '2' then [(10 + cval c2, rest2), (1, rest)]
        else [(1, rest)]
      | [] => [(1, [])]
    else if c = '0' then
      match rest with
      | c2 :: rest2 => if '1' ≤ c2 ∧ c2 ≤ '9' then [(cval c2, rest2)] else []
      | [] => []
    else if '2' ≤ c ∧ c ≤ '9' then [(cval c, rest)]
    else []

/-- `%d`: the match alternatives, in the regex order
`3[01]|[12]\d|0[1-9]|[1-9]`. -/
def dayAlts : List Char → List (Nat × List Char)
  | [] => []
  | c :: rest =>
    if c = '3' then
      match rest with
      | c2 :: rest2 =>
        if c2 = '0' ∨ c2 = '1' then [(30 + cval c2, rest2), (3, rest)]
        else [(3, rest)]
      | [] => [(3, [])]
    else if c = '1' ∨ c = '2' then
      match rest with
      | c2 :: rest2 =>
        if c2.isDigit then [(10 * cval c + cval c2, rest2), (cval c, rest)]
        else [(cval c, rest)]
      | [] => [(cval c, [])]
    else if c = '0' then
      match rest with
      | c2 :: rest2 => if '1' ≤ c2 ∧ c2 ≤ '9' then [(cval c2, rest2)] else []
      | [] => []
    else if '4' ≤ c ∧ c ≤ '9' then [(cval c, rest)]
    else []

/-- Consume the literal separator of the format, if any. -/
def consumeSep (sep : Option Char) (cs : List Char) : Option (List Char) :=
  match sep with
  | none => some cs
  | some c =>
    match cs with
    | c2 :: rest => if c2 = c then some rest else none
    | [] => none

/-- First alternative on which the continuation succeeds (regex
backtracking through an alternation). -/
def firstSome {α β : Type} (l : List α) (f : α → Option β) : Option β :=
  match l with
  | [] => none
  | a :: t =>
    match f a with
    | some b => some b
    | none => firstSome t f

/-- Full-string regex match of `%Y<sep>%m<sep>%d` (with `sep := none` for
the compact `%Y%m%d`): the first complete match in backtracking order. -/
def matchYMD (sep : Option Char) (cs : List Char) : Option (Nat × Nat × Nat) :=
  match parseY4 cs with
  | none => none
  | some (y, r1) =>
    match consumeSep sep r1 with
    | none => none
    | some r2 =>
      firstSome (monthAlts r2) (fun mAlt =>
        match consumeSep sep mAlt.2 with
        | none => none
        | some r3 =>
          firstSome (dayAlts r3) (fun dAlt =>
            if dAlt.2 = [] then some (y, mAlt.1, dAlt.1) else none))

/-- Error kinds raised (as Python exceptions) by the embedded code. -/
inductive Err where
  /-- `ValueError` from date parsing: unsupported date form. -/
  | unsupportedDateForm
  /-- `ValueError` from `date_range`: start after end. -/
  | startAfterEnd
  /-- `FileNotFoundError` from `Path.iterdir` on a missing directory. -/
  | fileNotFound
  /-- `IndexError` from `list[-1]` on an empty list. -/
  | indexError
  /-- `AttributeError`: `.strftime` on a non-date value. -/
  | attributeError
deriving DecidableEq, Repr

/-- `datetime.datetime.strptime(s, fmt).date()` for the three date formats:
regex match first, then calendar validation; both failure modes are a
`ValueError`. -/
def strptime_date (sep : Option Char) (s : String) : Except Err Date :=
  match matchYMD sep s.data with
  | none => .error .unsupportedDateForm
  | some (y, m, d) =>
    if isValidDate y m d then .ok ⟨y, m, d⟩ else .error .unsupportedDateForm

/-- `validate_date_format` (`date_utils.py`): `strptime(date_str, "%Y-%m-%d")`
succeeds. -/
def validate_date_format (s : String) : Bool :=
  match strptime_date (some '-') s with
  | .ok _ => true
  | .error _ => false

/-! ### `to_date_string` and `parse_date` (`utils/date_utils.py`) -/

/-- The `DATE_TYPE` union (`str | datetime.date | datetime.datetime |
pd.Timestamp | None`).  `pd.Timestamp` subclasses `datetime.datetime`, which
in turn subclasses `datetime.date`; a timestamp therefore behaves exactly as
a `datetime` in every `isinstance` dispatch below, and is represented by the
`datetimeObj` constructor. -/
inductive DateInput where
  | none
  | str (s : String)
  | dateObj (d : Date)
  | datetimeObj (d : Date) (hh mi ss : Nat)
deriving DecidableEq, Repr

/-- The string branch of `to_date_string`: try `%Y-%m-%d` (returning the
input unchanged on success), then `%Y%m%d`, then `%Y/%m/%d` (each reformatted
with `strftime('%Y-%m-%d')`), else raise `ValueError`. -/
def to_date_string_str (s : String) : Except Err String :=
  match strptime_date (some '-') s with
  | .ok _ => .ok s
  | .error _ =>
    match strptime_date none s with
    | .ok d => .ok d.iso
    | .error _ =>
      match strptime_date (some '/') s with
      | .ok d => .ok d.iso
      | .error _ => .error .unsupportedDateForm

/-- `datetime.datetime.isoformat()` with zero microseconds:
`YYYY-MM-DDTHH:MM:SS`. -/
def datetimeIso (d : Date) (hh mi ss : Nat) : String :=
  d.iso ++ "T" ++ pad2 hh ++ ":" ++ pad2 mi ++ ":" ++ pad2 ss

/-- `to_date_string` (`date_utils.py`).  The source checks
`isinstance(date, datetime.date)` before `isinstance(date, datetime.datetime)`;
since `datetime.datetime` is a subclass of `datetime.date`, a datetime (or a
`pd.Timestamp`) also takes the `datetime.date` branch and is rendered by its
own `isoformat()`, which includes the time of day.  The later
`datetime.datetime` and `pd.Timestamp` branches of the source are dead code. -/
def to_date_string : DateInput → Except Err (Option String)
  | .none => .ok Option.none
  | .str s => (to_date_string_str s).map some
  | .dateObj d => .ok (some d.iso)
  | .datetimeObj d hh mi ss => .ok (some (datetimeIso d hh mi ss))

/-- The string branch of `parse_date` (`date_utils.py`):
`strptime(to_date_string(date), "%Y-%m-%d").date()`. -/
def parse_date_str (s : String) : Except Err Date := do
  let ds ← to_date_string_str s
  strptime_date (some '-') ds

/-! ### `pathlib.PurePosixPath`

A path is its anchor flag plus its list of parts, exactly the data
`PurePosixPath` normalizes a string down to.  Joining (`/`) parses the
right operand: a leading `/` resets to an absolute path; otherwise the
operand is split on `/`, dropping empty and `.` segments, and appended. -/

structure PPath where
  abs : Bool
  parts : List String
deriving DecidableEq, Repr

/-- Split a character list on `/`. -/
def splitSlash : List Char → List (List Char)
  | [] => [[]]
  | c :: rest =>
    let r := splitSlash rest
    if c = '/' then [] :: r
    else
      match r with
      | h :: t => (c :: h) :: t
      | [] => [[c]]

/-- Relative-path segments of a string: split on `/`, drop empty and `.`
segments (the normalization `PurePosixPath` applies). -/
def relParts (s : String) : List String :=
  ((splitSlash s.data).filter (fun l => l ≠ [] ∧ l ≠ ['.'])).map
    (fun l => String.mk l)

/-- Does the string denote an absolute path (leading `/`)? -/
def isAbsStr (s : String) : Bool := s.data.head? = some '/'

/-- `PurePosixPath(s)`. -/
def parsePath (s : String) : PPath :=
  ⟨isAbsStr s, relParts s⟩

/-- `p / s` on `PurePosixPath`: an absolute right operand replaces the
path, otherwise its segments are appended. -/
def pdiv (p : PPath) (s : String) : PPath :=
  if isAbsStr s then ⟨true, relParts s⟩ else ⟨p.abs, p.parts ++ relParts s⟩

/-- `str()` of a `PurePosixPath` (for anchored or non-empty paths). -/
def PPath.render (p : PPath) : String :=
  (if p.abs then "/" else "") ++ String.intercalate "/" p.parts

/-! ### `TardisDataManager` path derivation (`data/data_manager.py`) -/

/-- The manager configuration fields `get_path` and the listings read:
`root_dir = Path(root)`, the exchange identifier and the file format. -/
structure Manager where
  root_dir : PPath
  exchange : String
  format : String
deriving DecidableEq, Repr

/-- `TardisDataManager.get_path(data_type, date, symbol)`:
`root_dir / exchange / data_type`, then the normalized date segment when a
date is given, then `symbol.{format}.gz` when a symbol is given.  Raises
whatever `to_date_string` raises. -/
def get_path (M : Manager) (data_type : String) (date : DateInput)
    (symbol : Option String) : Except Err PPath := do
  let date_str ← to_date_string date
  let path := pdiv (pdiv M.root_dir M.exchange) data_type
  match date_str with
  | Option.none => pure path
  | some ds =>
    let path := pdiv path ds
    match symbol with
    | Option.none => pure path
    | some sym => pure (pdiv path (sym ++ "." ++ M.format ++ ".gz"))

/-- `TardisDataManager.default_file_name(exchange, data_type, date, symbol,
format)`: the f-string `"{exchange}/{data_type}/{date:%Y-%m-%d}/{symbol}.{format}.gz"`.
`date.strftime` requires a `date`/`datetime` value (`AttributeError`
otherwise); `strftime('%Y-%m-%d')` uses only the calendar fields. -/
def default_file_name (exchange data_type : String) (date : DateInput)
    (symbol format : String) : Except Err String :=
  match date with
  | .dateObj d =>
    .ok (exchange ++ "/" ++ data_type ++ "/" ++ d.iso ++ "/" ++ symbol
      ++ "." ++ format ++ ".gz")
  | .datetimeObj d _ _ _ =>
    .ok (exchange ++ "/" ++ data_type ++ "/" ++ d.iso ++ "/" ++ symbol
      ++ "." ++ format ++ ".gz")
  | _ => .error .attributeError

/-! ### Directory listings (`list_dates` / `list_symbols`)

The real methods read the local file tree; the embedding abstracts the tree
as an oracle mapping a directory path to its entries (child name paired with
`is_dir()`), or to `none` when no such directory exists. -/

/-- Abstract file tree: directory contents by path. -/
def FS : Type := PPath → Option (List (String × Bool))

/-- `PurePath.stem`: the file name with its last suffix removed; a name whose
only dot leads, or whose last dot trails, has no suffix. -/
def lastIdxOf (c : Char) : List Char → Option Nat
  | [] => none
  | x :: xs =>
    match lastIdxOf c xs with
    | some i => some (i + 1)
    | none => if x = c then some 0 else none

/-- `Path.stem`, following the CPython rule: the suffix is `name[i:]` for
`i = name.rfind('.')` when `0 < i < len(name) - 1`, else empty. -/
def pyStem (name : String) : String :=
  let cs := name.data
  match lastIdxOf '.' cs with
  | none => name
  | some i =>
    if 0 < i ∧ i < cs.length - 1 then String.mk (cs.take i) else name

/-- Code-point lexicographic order on character lists: the comparison
Python uses on `str`. -/
def lexLe : List Char → List Char → Bool
  | [], _ => true
  | _ :: _, [] => false
  | a :: as, b :: bs =>
    if a < b then true else if a = b then lexLe as bs else false

/-- Python `str` comparison `a <= b` (code-point lexicographic). -/
def strLe (a b : String) : Bool := lexLe a.data b.data

/-- `sorted(...)` on strings: ascending code-point lexicographic order,
matching Python `sorted`. -/
def pySorted (l : List String) : List String :=
  l.insertionSort (fun a b => strLe a b = true)

/-- `TardisDataManager.list_dates(data_type)`:
`sorted(f.stem for f in get_path(data_type).iterdir() if f.is_dir())`.
`iterdir` raises `FileNotFoundError` when the directory does not exist. -/
def list_dates (fs : FS) (M : Manager) (data_type : String) :
    Except Err (List String) := do
  let path ← get_path M data_type .none Option.none
  match fs path with
  | Option.none => .error .fileNotFound
  | some entries =>
    pure (pySorted (((entries.filter (fun e => e.2)).map
      (fun e => pyStem e.1))))

/-- `TardisDataManager.list_symbols(data_type, date)`: when the date is
omitted it is `list_dates(data_type)[-1]` (an `IndexError` on an empty
listing); then `sorted(f.stem for f in get_path(data_type, date).glob(f".{format}.gz"))`.
The glob pattern `.{format}.gz` contains no wildcard, so it matches exactly
the entry literally named `.{format}.gz`; glob on a missing directory yields
nothing (and raises nothing). -/
def list_symbols (fs : FS) (M : Manager) (data_type : String)
    (date : DateInput) : Except Err (List String) := do
  let date ← match date with
    | .none => do
      let ds ← list_dates fs M data_type
      match ds.getLast? with
      | Option.none => Except.error Err.indexError
      | some d => pure (DateInput.str d)
    | d => pure d
  let path ← get_path M data_type date Option.none
  match fs path with
  | Option.none => pure []
  | some entries =>
    pure (pySorted ((entries.filter
      (fun e => e.1 = "." ++ M.format ++ ".gz")).map (fun e => pyStem e.1)))

/-! ### `SimpleCache` (`data/data_manager.py`)

The dict `self.cache` maps an md5 fingerprint of the URL to
`(data, timestamp, ttl)`.  The fingerprint function is an arbitrary
parameter `hash` of the operations (both `get` and `set` apply it to the
URL, so no property of md5 is assumed).  `time.time()` values and TTLs are
integers. -/

structure SimpleCache (V : Type) where
  cache : List (String × V × Int × Int)
  default_ttl : Int
deriving DecidableEq, Repr

namespace SimpleCache

variable {V : Type}

/-- Entry stored under a fingerprint, if any (`key in self.cache`). -/
def lookup (c : SimpleCache V) (k : String) : Option (V × Int × Int) :=
  (c.cache.find? (fun e => e.1 == k)).map (fun e => e.2)

/-- `del self.cache[key]`. -/
def erase (c : SimpleCache V) (k : String) : SimpleCache V :=
  { c with cache := c.cache.filter (fun e => !(e.1 == k)) }

/-- `SimpleCache.get(url)` at time `now`: return the data if present and
`now - timestamp < ttl`, else delete the expired entry and return `None`.
The result pairs the returned value with the cache state afterwards. -/
def get (hash : String → String) (c : SimpleCache V) (url : String)
    (now : Int) : Option V × SimpleCache V :=
  let key := hash url
  match c.lookup key with
  | some (data, timestamp, ttl) =>
    if now - timestamp < ttl then (some data, c)
    else (none, c.erase key)
  | none => (none, c)

/-- `SimpleCache.set(url, data, ttl_seconds)` at time `now`:
`self.cache[key] = (data, time.time(), ttl)` with the default TTL when none
is given. -/
def set (hash : String → String) (c : SimpleCache V) (url : String)
    (data : V) (ttl_seconds : Option Int) (now : Int) : SimpleCache V :=
  let key := hash url
  let ttl := ttl_seconds.getD c.default_ttl
  { c with cache := (key, data, now, ttl) :: (c.erase key).cache }

/-- `SimpleCache.clear()`. -/
def clear (c : SimpleCache V) : SimpleCache V :=
  { c with cache := [] }

/-- The record `get_stats` returns. -/
structure Stats where
  total_entries : Nat
  expired_entries : Nat
  active_entries : Nat
deriving DecidableEq, Repr

/-- `SimpleCache.get_stats()` at time `now`: scan the table, counting the
entries with `now - timestamp >= ttl` as expired; the cache is only read,
so the state is returned unchanged. -/
def get_stats (c : SimpleCache V) (now : Int) : Stats × SimpleCache V :=
  let total := c.cache.length
  let expired :=
    (c.cache.filter (fun e => e.2.2.2 ≤ now - e.2.2.1)).length
  (⟨total, expired, total - expired⟩, c)

end SimpleCache

/-! ### `TardisApi` cache plumbing (`data/data_manager.py`)

Only the cache-facing behaviour is embedded; the network call itself is an
external effect.  Every cache-touching method is guarded by
`if self.enable_cache and self.cache:` (a `SimpleCache` object is always
truthy, so the guard is `enable_cache` and the cache being present). -/

structure TardisApi (V : Type) where
  http_proxy : Option String
  enable_cache : Bool
  cache_ttl_seconds : Int
  cache : Option (SimpleCache V)

namespace TardisApi

variable {V : Type}

/-- `TardisApi.__init__`: the cache exists iff `enable_cache`. -/
def init (http_proxy : Option String) (enable_cache : Bool)
    (cache_ttl_seconds : Int) : TardisApi V :=
  { http_proxy := http_proxy
    enable_cache := enable_cache
    cache_ttl_seconds := cache_ttl_seconds
    cache :=
      if enable_cache then
        some { cache := [], default_ttl := cache_ttl_seconds }
      else none }

/-- The guard `self.enable_cache and self.cache`. -/
def cacheOn (api : TardisApi V) : Bool :=
  api.enable_cache && api.cache.isSome

/-- The cache read `_call_api` performs before going to the network. -/
def cache_get (hash : String → String) (api : TardisApi V) (url : String)
    (now : Int) : Option V × TardisApi V :=
  match api.cache with
  | some c =>
    if api.enable_cache then
      let (r, c') := c.get hash url now
      (r, { api with cache := some c' })
    else (none, api)
  | none => (none, api)

/-- The cache write `_call_api` performs after a successful fetch:
`self.cache.set(url, data, self.cache_ttl_seconds)`. -/
def cache_set (hash : String → String) (api : TardisApi V) (url : String)
    (data : V) (now : Int) : TardisApi V :=
  match api.cache with
  | some c =>
    if api.enable_cache then
      { api with
        cache := some (c.set hash url data (some api.cache_ttl_seconds) now) }
    else api
  | none => api

/-- `TardisApi.clear_cache()`: clears when enabled, otherwise only logs. -/
def clear_cache (api : TardisApi V) : TardisApi V :=
  match api.cache with
  | some c => if api.enable_cache then { api with cache := some c.clear } else api
  | none => api

/-- Result of `TardisApi.get_cache_stats()`: the stats record, or the
`{"error": "Caching is not enabled"}` sentinel. -/
inductive StatsResult where
  | stats (s : SimpleCache.Stats)
  | disabledSentinel
deriving DecidableEq, Repr

/-- `TardisApi.get_cache_stats()` (read-only). -/
def get_cache_stats (api : TardisApi V) (now : Int) : StatsResult :=
  match api.cache with
  | some c =>
    if api.enable_cache then .stats (c.get_stats now).1 else .disabledSentinel
  | none => .disabledSentinel

/-- `TardisApi.invalidate_cache_entry(url)`: when enabled, delete the entry
for the url's fingerprint if present and report whether one was removed;
when disabled, log and return `False`. -/
def invalidate_cache_entry (hash : String → String) (api : TardisApi V)
    (url : String) : Bool × TardisApi V :=
  match api.cache with
  | some c =>
    if api.enable_cache then
      let key := hash url
      match c.lookup key with
      | some _ => (true, { api with cache := some (c.erase key) })
      | none => (false, api)
    else (false, api)
  | none => (false, api)

/-- `TardisApi.is_cache_enabled()`. -/
def is_cache_enabled (api : TardisApi V) : Bool :=
  api.enable_cache

end TardisApi

/-! ### `date_range` (`utils/date_utils.py`) -/

/-- The `inclusive` parameter. -/
inductive Inclusive where
  | both
  | neither
  | left
  | right
deriving DecidableEq, Repr

/-- `pd.date_range(start, end, freq="D")` for `start ≤ end`: the consecutive
days from `start` to `end`. -/
def pdDateRange (s e : Date) : List Date :=
  (List.range ((toRD e - toRD s).toNat + 1)).map (fun i => addDays s i)

/-- `date_range(start_date, end_date, inclusive)` on string dates (the
`to_str=False` result, as a list of dates): parse both ends, raise
`ValueError` when start is after end, generate the daily range, then trim
it according to the mode exactly as the source slices do. -/
def date_range (start_date end_date : String) (inclusive : Inclusive) :
    Except Err (List Date) := do
  let s ← parse_date_str start_date
  let e ← parse_date_str end_date
  if Date.ltb e s then .error .startAfterEnd
  else
    let l := pdDateRange s e
    pure (match inclusive with
      | .both => l
      | .neither => if 2 ≤ l.length then (l.drop 1).dropLast else []
      | .left => if 1 ≤ l.length then l.dropLast else []
      | .right => if 1 ≤ l.length then l.drop 1 else [])

end TardisDL

deriving instance DecidableEq for Except

namespace TardisDL

/-- A plain path segment: a nonempty component, not `.`, without `/`; such
a component joins as exactly one new part (the "valid field" notion used by
the path-injectivity statements). -/
def seg_ok (s : String) : Prop := s ≠ "" ∧ s ≠ "." ∧ '/' ∉ s.data

instance (s : String) : Decidable (seg_ok s) := by
  unfold seg_ok
  infer_instance

/-! ### Helper lemmas -/

theorem str_data_append (a b : String) : (a ++ b).data = a.data ++ b.data := rfl

theorem lexLe_refl : ∀ a : List Char, lexLe a a = true
  | [] => rfl
  | c :: cs => by simp [lexLe, lt_irrefl, lexLe_refl cs]

theorem lexLe_total : ∀ a b : List Char, lexLe a b = true ∨ lexLe b a = true
  | [], _ => Or.inl rfl
  | _ :: _, [] => Or.inr rfl
  | a :: as, b :: bs => by
    rcases lt_trichotomy a b with h | h | h
    · exact Or.inl (by simp [lexLe, h])
    · subst h
      rcases lexLe_total as bs with h2 | h2
      · exact Or.inl (by simp [lexLe, lt_irrefl, h2])
      · exact Or.inr (by simp [lexLe, lt_irrefl, h2])
    · exact Or.inr (by simp [lexLe, h])

theorem lexLe_trans : ∀ a b c : List Char,
    lexLe a b = true → lexLe b c = true → lexLe a c = true
  | [], _, _, _, _ => rfl
  | x :: xs, [], _, h1, _ => by simp [lexLe] at h1
  | x :: xs, y :: ys, [], _, h2 => by simp [lexLe] at h2
  | x :: xs, y :: ys, z :: zs, h1, h2 => by
    simp only [lexLe] at h1 h2 ⊢
    by_cases hxy : x < y
    · by_cases hyz : y < z
      · simp [lt_trans hxy hyz]
      · rw [if_neg hyz] at h2
        by_cases hyz2 : y = z
        · subst hyz2
          simp [hxy]
        · rw [if_neg hyz2] at h2
          exact absurd h2 (by simp)
    · rw [if_neg hxy] at h1
      by_cases hxy2 : x = y
      · subst hxy2
        rw [if_pos rfl] at h1
        by_cases hxz : x < z
        · simp [hxz]
        · rw [if_neg hxz] at h2
          by_cases hxz2 : x = z
          · subst hxz2
            rw [if_pos rfl] at h2
            simp [lt_irrefl, lexLe_trans xs ys zs h1 h2]
          · rw [if_neg hxz2] at h2
            exact absurd h2 (by simp)
      · rw [if_neg hxy2] at h1
        exact absurd h1 (by simp)

theorem mk_data (s : String) : String.mk s.data = s := by
  cases s
  rfl

theorem data_ne_nil_of_ne {s : String} (h : s ≠ "") : s.data ≠ [] := by
  intro hd
  apply h
  rw [← mk_data s, hd]

theorem splitSlash_no_slash : ∀ {cs : List Char}, '/' ∉ cs → splitSlash cs = [cs]
  | [], _ => rfl
  | c :: rest, h => by
    have hc : c ≠ '/' := fun hc => h (hc ▸ List.mem_cons_self c rest)
    have hr : '/' ∉ rest := fun hm => h (List.mem_cons_of_mem c hm)
    simp [splitSlash, splitSlash_no_slash hr, hc]

theorem relParts_single {s : String} (h1 : s ≠ "") (h2 : s ≠ ".")
    (h3 : '/' ∉ s.data) : relParts s = [s] := by
  have hd1 : s.data ≠ [] := data_ne_nil_of_ne h1
  have hd2 : s.data ≠ ['.'] := by
    intro hd
    exact h2 (by rw [← mk_data s, hd])
  simp [relParts, splitSlash_no_slash h3, List.filter_cons, hd1, hd2, mk_data]

theorem isAbsStr_false {s : String} (h3 : '/' ∉ s.data) : isAbsStr s = false := by
  unfold isAbsStr
  cases hd : s.data with
  | nil => simp [hd]
  | cons c rest =>
    have hc : c ≠ '/' := fun h =>
      h3 (by rw [hd, h]; exact List.mem_cons_self _ _)
    simp [hd, hc]

theorem pdiv_single {p : PPath} {s : String} (h1 : s ≠ "") (h2 : s ≠ ".")
    (h3 : '/' ∉ s.data) : pdiv p s = ⟨p.abs, p.parts ++ [s]⟩ := by
  unfold pdiv
  rw [isAbsStr_false h3]
  simp [relParts_single h1 h2 h3]

theorem append_dot_inj : ∀ (a b m1 m2 : List Char), '.' ∉ a → '.' ∉ b →
    a ++ '.' :: m1 = b ++ '.' :: m2 → a = b ∧ m1 = m2 := by
  intro a
  induction a with
  | nil =>
    intro b m1 m2 ha hb h
    cases b with
    | nil => simpa using h
    | cons c b' =>
      simp only [List.nil_append, List.cons_append, List.cons.injEq] at h
      exact absurd (by simp [← h.1]) hb
  | cons c a' ih =>
    intro b m1 m2 ha hb h
    cases b with
    | nil =>
      simp only [List.nil_append, List.cons_append, List.cons.injEq] at h
      exact absurd (by simp [h.1]) ha
    | cons c2 b' =>
      simp only [List.cons_append, List.cons.injEq] at h
      have ha' : '.' ∉ a' := fun hm => ha (List.mem_cons_of_mem c hm)
      have hb' : '.' ∉ b' := fun hm => hb (List.mem_cons_of_mem c2 hm)
      have h2 := ih b' m1 m2 ha' hb' h.2
      exact ⟨by simp [h.1, h2.1], h2.2⟩

theorem sorted_le_getLast : ∀ (l : List String),
    l.Sorted (fun a b => strLe a b = true) →
    ∀ x ∈ l, ∀ (hne : l ≠ []), strLe x (l.getLast hne) = true := by
  intro l
  induction l with
  | nil =>
    intro _ x hx hne
    exact absurd rfl hne
  | cons a t ih =>
    intro h x hx hne
    cases t with
    | nil =>
      simp at hx
      subst hx
      simp [List.getLast, strLe, lexLe_refl]
    | cons b t2 =>
      have ht : (b :: t2) ≠ [] := by simp
      rw [List.getLast_cons ht]
      rcases List.mem_cons.mp hx with rfl | hxt
      · exact (List.sorted_cons.mp h).1 _ (List.getLast_mem ht)
      · exact ih (List.sorted_cons.mp h).2 x hxt ht

end TardisDL

namespace TardisDL

theorem length_filter_compl {α : Type} (l : List α) (p : α → Bool) :
    (l.filter p).length + (l.filter (fun a => !(p a))).length = l.length := by
  induction l with
  | nil => rfl
  | cons a t ih =>
    by_cases h : p a <;> simp [List.filter_cons, h, ← ih] <;> omega

theorem lookup_set_self {V : Type} (hash : String → String) (c : SimpleCache V)
    (url : String) (v : V) (o : Option Int) (t : Int) :
    (SimpleCache.set hash c url v o t).lookup (hash url) =
      some (v, t, o.getD c.default_ttl) := by
  simp [SimpleCache.set, SimpleCache.lookup, List.find?_cons]

theorem erase_erase {V : Type} (c : SimpleCache V) (k : String) :
    (c.erase k).erase k = c.erase k := by
  simp [SimpleCache.erase, List.filter_filter]

theorem erase_set_self {V : Type} (hash : String → String) (c : SimpleCache V)
    (url : String) (v : V) (o : Option Int) (t : Int) :
    (SimpleCache.set hash c url v o t).erase (hash url) = c.erase (hash url) := by
  simp [SimpleCache.set, SimpleCache.erase, List.filter_cons, List.filter_filter]

theorem lookup_erase_self {V : Type} (c : SimpleCache V) (k : String) :
    (c.erase k).lookup k = none := by
  simp only [SimpleCache.erase, SimpleCache.lookup, Option.map_eq_none',
    List.find?_eq_none]
  intro e he
  have := (List.mem_filter.mp he).2
  simp at this
  simp [this]

end TardisDL

namespace TardisDL

/-- C1: for every key, payload and positive TTL, a value `set` at time `t`
(with no intervening operation) is returned by `get` at `t'` exactly when
`t' - t < ttl`; at `t' - t ≥ ttl` the `get` returns absent, removes the
entry eagerly (its fingerprint no longer resolves), and a subsequent stats
scan counts one entry fewer than before the expired read. -/
theorem C1_cache_ttl {V : Type} (hash : String → String) (c : SimpleCache V)
    (k : String) (v : V) (ttl t t' : Int) (httl : 0 < ttl) :
    (t' - t < ttl →
      (SimpleCache.get hash (SimpleCache.set hash c k v (some ttl) t) k t').1 =
        some v) ∧
    (ttl ≤ t' - t →
      (SimpleCache.get hash (SimpleCache.set hash c k v (some ttl) t) k t').1 =
        none ∧
      ((SimpleCache.get hash (SimpleCache.set hash c k v (some ttl) t) k t').2).lookup
        (hash k) = none ∧
      ((SimpleCache.get hash (SimpleCache.set hash c k v (some ttl) t) k t').2).cache.length
        + 1 =
        ((SimpleCache.set hash c k v (some ttl) t).get_stats t').1.total_entries) := by
  constructor
  · intro h
    simp only [SimpleCache.get, lookup_set_self]
    simp [h]
  · intro h
    have hneg : ¬ (t' - t < ttl) := not_lt.mpr h
    have hget : SimpleCache.get hash (SimpleCache.set hash c k v (some ttl) t)
        k t' = (none, c.erase (hash k)) := by
      simp only [SimpleCache.get, lookup_set_self]
      simp [hneg, erase_set_self]
    refine ⟨?_, ?_, ?_⟩
    · rw [hget]
    · rw [hget]
      exact lookup_erase_self c (hash k)
    · rw [hget]
      simp [SimpleCache.set, SimpleCache.get_stats, SimpleCache.erase]

/-- C1 witness: a concrete run (identity fingerprinting, `ttl = 10`,
set at 0): a read at 5 hits, a read at 10 misses and leaves no entry. -/
theorem C1_cache_ttl_witness :
    (0 : Int) < 10 ∧
    ((SimpleCache.get id (SimpleCache.set id (⟨[], 3600⟩ : SimpleCache Nat)
        "k" 42 (some 10) 0) "k" 5).1 = some 42) ∧
    ((SimpleCache.get id (SimpleCache.set id (⟨[], 3600⟩ : SimpleCache Nat)
        "k" 42 (some 10) 0) "k" 10).1 = none) :=
  ⟨by decide,
   (C1_cache_ttl id ⟨[], 3600⟩ "k" 42 10 0 5 (by decide)).1 (by decide),
   ((C1_cache_ttl id ⟨[], 3600⟩ "k" 42 10 0 10 (by decide)).2 (by decide)).1⟩

/-- C9: `get_stats` leaves the cache table exactly as it was and reports
`total` = number of entries, `expired` = number of entries with
`now - stored_at ≥ ttl`, `active` = number of entries satisfying `get`'s
validity rule `now - stored_at < ttl` (the exact complement), which equals
`total - expired`. -/
theorem C9_stats_pure {V : Type} (c : SimpleCache V) (now : Int) :
    (c.get_stats now).2 = c ∧
    (c.get_stats now).1.total_entries = c.cache.length ∧
    (c.get_stats now).1.expired_entries =
      (c.cache.filter (fun e => decide (e.2.2.2 ≤ now - e.2.2.1))).length ∧
    (c.get_stats now).1.active_entries =
      (c.cache.filter (fun e => decide (now - e.2.2.1 < e.2.2.2))).length ∧
    (c.get_stats now).1.active_entries =
      (c.get_stats now).1.total_entries - (c.get_stats now).1.expired_entries := by
  refine ⟨rfl, rfl, rfl, ?_, rfl⟩
  show c.cache.length - _ = _
  have hc := length_filter_compl c.cache (fun e => decide (e.2.2.2 ≤ now - e.2.2.1))
  have hp : ∀ e : String × V × Int × Int,
      (!(decide (e.2.2.2 ≤ now - e.2.2.1))) = decide (now - e.2.2.1 < e.2.2.2) := by
    intro e
    by_cases hle : e.2.2.2 ≤ now - e.2.2.1
    · simp [hle, not_lt.mpr hle]
    · simp [hle, not_le.mp hle]
  rw [funext hp] at hc
  omega

/-- C7: an API wrapper constructed with caching disabled is inert and
total: `set` then `get` returns absent, `clear` and `invalidate` leave the
state unchanged (`invalidate` reporting that nothing was removed), `stats`
returns the disabled sentinel; and no cache operation, on any state, ever
changes the `enable_cache` flag fixed at construction. -/
theorem C7_disabled_cache_noop {V : Type} (hash : String → String)
    (proxy : Option String) (ttl : Int) (k : String) (v : V) (now now' : Int) :
    (TardisApi.cache_get hash
      (TardisApi.cache_set hash (TardisApi.init proxy false ttl) k v now)
      k now').1 = (none : Option V) ∧
    TardisApi.cache_set hash (TardisApi.init proxy false ttl) k v now =
      (TardisApi.init proxy false ttl : TardisApi V) ∧
    TardisApi.clear_cache (TardisApi.init proxy false ttl) =
      (TardisApi.init proxy false ttl : TardisApi V) ∧
    TardisApi.invalidate_cache_entry hash (TardisApi.init proxy false ttl) k =
      (false, (TardisApi.init proxy false ttl : TardisApi V)) ∧
    TardisApi.get_cache_stats (TardisApi.init proxy false ttl : TardisApi V)
      now = .disabledSentinel ∧
    (TardisApi.init proxy false ttl : TardisApi V).is_cache_enabled = false ∧
    (∀ (api : TardisApi V) (url : String) (d : V) (nw : Int),
      (TardisApi.cache_get hash api url nw).2.enable_cache = api.enable_cache ∧
      (TardisApi.cache_set hash api url d nw).enable_cache = api.enable_cache ∧
      (TardisApi.clear_cache api).enable_cache = api.enable_cache ∧
      (TardisApi.invalidate_cache_entry hash api url).2.enable_cache =
        api.enable_cache) := by
  refine ⟨rfl, rfl, rfl, rfl, rfl, rfl, ?_⟩
  intro api url d nw
  refine ⟨?_, ?_, ?_, ?_⟩ <;>
    · rcases api with ⟨p, e, t, co⟩
      cases co <;> cases e <;>
        simp [TardisApi.cache_get, TardisApi.cache_set, TardisApi.clear_cache,
          TardisApi.invalidate_cache_entry]
      repeat' split <;> rfl

end TardisDL

namespace TardisDL

theorem list_dates_eq (fs : FS) (M : Manager) (dt : String) :
    list_dates fs M dt =
      match fs (pdiv (pdiv M.root_dir M.exchange) dt) with
      | Option.none => .error .fileNotFound
      | some entries =>
        .ok (pySorted ((entries.filter (fun e => e.2)).map
          (fun e => pyStem e.1))) := rfl

theorem list_symbols_str_eq (fs : FS) (M : Manager) (dt da ds : String)
    (hda : to_date_string (.str da) = .ok (some ds)) :
    list_symbols fs M dt (.str da) =
      match fs (pdiv (pdiv (pdiv M.root_dir M.exchange) dt) ds) with
      | Option.none => .ok []
      | some entries =>
        .ok (pySorted ((entries.filter
          (fun e => e.1 = "." ++ M.format ++ ".gz")).map
          (fun e => pyStem e.1))) := by
  simp only [list_symbols, get_path, hda, bind, Except.bind, pure, Except.pure]

/-- C3 (code bug): listing the symbols of a date directory holding the single
file `BTC-PERPETUAL.csv.gz` under format `csv` yields `[]`, not
`["BTC-PERPETUAL"]`: the glob pattern `.csv.gz` carries no wildcard, so it
matches only an entry literally named `.csv.gz` — and even that entry's
`stem` still carries `.csv`, as the second conjunct shows. -/
theorem C3_list_symbols_glob_bug :
    list_symbols
      (fun p => if p = ⟨true, ["data", "deribit", "trades", "2023-01-01"]⟩
        then some [("BTC-PERPETUAL.csv.gz", false)] else none)
      ⟨parsePath "/data", "deribit", "csv"⟩ "trades" (.str "2023-01-01") =
      .ok [] ∧
    list_symbols
      (fun p => if p = ⟨true, ["data", "deribit", "trades", "2023-01-01"]⟩
        then some [(".csv.gz", false)] else none)
      ⟨parsePath "/data", "deribit", "csv"⟩ "trades" (.str "2023-01-01") =
      .ok [".csv"] := by
  constructor <;> decide

/-- C4 counterexample: on a file tree with no directories at all,
`list_symbols` for an explicit date returns the empty sequence (glob on a
missing directory yields nothing and raises nothing), while the claim
demands a not-found failure from every listing operation; `list_dates`
does fail. -/
theorem C4_counterexample :
    list_symbols (fun _ => none) ⟨parsePath "/data", "deribit", "csv"⟩
      "trades" (.str "2023-01-01") = .ok [] ∧
    list_dates (fun _ => none) ⟨parsePath "/data", "deribit", "csv"⟩
      "trades" = .error .fileNotFound := by
  constructor <;> decide

/-- C4 (amended): `list_dates` on a missing exchange/data-type directory
fails with the not-found error, and on an existing-but-empty directory
returns the empty sequence; `list_symbols` on a missing date directory does
NOT fail but returns the empty sequence (its glob yields nothing), just as
it does on an existing-but-empty date directory. -/
theorem C4_listing_missing_dir (fs1 fs2 fs3 fs4 : FS) (M : Manager)
    (dt da ds : String)
    (hda : to_date_string (.str da) = .ok (some ds))
    (h1 : fs1 (pdiv (pdiv M.root_dir M.exchange) dt) = none)
    (h2 : fs2 (pdiv (pdiv M.root_dir M.exchange) dt) = some [])
    (h3 : fs3 (pdiv (pdiv (pdiv M.root_dir M.exchange) dt) ds) = none)
    (h4 : fs4 (pdiv (pdiv (pdiv M.root_dir M.exchange) dt) ds) = some []) :
    list_dates fs1 M dt = .error .fileNotFound ∧
    list_dates fs2 M dt = .ok [] ∧
    list_symbols fs3 M dt (.str da) = .ok [] ∧
    list_symbols fs4 M dt (.str da) = .ok [] := by
  refine ⟨?_, ?_, ?_, ?_⟩
  · rw [list_dates_eq, h1]
  · rw [list_dates_eq, h2]
    rfl
  · rw [list_symbols_str_eq fs3 M dt da ds hda, h3]
  · rw [list_symbols_str_eq fs4 M dt da ds hda, h4]
    rfl

/-- C4 witness: the amended statement at a concrete manager, date and four
concrete file trees. -/
theorem C4_listing_missing_dir_witness :
    list_dates (fun _ => none)
      (⟨parsePath "/data", "deribit", "csv"⟩ : Manager) "trades" =
      .error .fileNotFound ∧
    list_dates
      (fun p => if p = ⟨true, ["data", "deribit", "trades"]⟩
        then some [] else none)
      (⟨parsePath "/data", "deribit", "csv"⟩ : Manager) "trades" = .ok [] ∧
    list_symbols (fun _ => none)
      (⟨parsePath "/data", "deribit", "csv"⟩ : Manager) "trades"
      (.str "2023-01-01") = .ok [] ∧
    list_symbols
      (fun p => if p = ⟨true, ["data", "deribit", "trades", "2023-01-01"]⟩
        then some [] else none)
      (⟨parsePath "/data", "deribit", "csv"⟩ : Manager) "trades"
      (.str "2023-01-01") = .ok [] :=
  C4_listing_missing_dir (fun _ => none)
    (fun p => if p = ⟨true, ["data", "deribit", "trades"]⟩
      then some [] else none)
    (fun _ => none)
    (fun p => if p = ⟨true, ["data", "deribit", "trades", "2023-01-01"]⟩
      then some [] else none)
    ⟨parsePath "/data", "deribit", "csv"⟩ "trades" "2023-01-01" "2023-01-01"
    (by decide) (by decide) (by decide) (by decide) (by decide)

/-- C5: `date_range("2025-01-01", "2025-01-05")` yields the five days under
`both`, the three middle days under `neither`, four days dropping the end
under `left`, four days dropping the start under `right`; and whenever the
parsed start date is strictly after the parsed end date, `date_range` fails
with the start-after-end error for every inclusivity mode. -/
theorem C5_date_range_inclusivity :
    date_range "2025-01-01" "2025-01-05" .both =
      .ok [⟨2025, 1, 1⟩, ⟨2025, 1, 2⟩, ⟨2025, 1, 3⟩, ⟨2025, 1, 4⟩,
        ⟨2025, 1, 5⟩] ∧
    date_range "2025-01-01" "2025-01-05" .neither =
      .ok [⟨2025, 1, 2⟩, ⟨2025, 1, 3⟩, ⟨2025, 1, 4⟩] ∧
    date_range "2025-01-01" "2025-01-05" .left =
      .ok [⟨2025, 1, 1⟩, ⟨2025, 1, 2⟩, ⟨2025, 1, 3⟩, ⟨2025, 1, 4⟩] ∧
    date_range "2025-01-01" "2025-01-05" .right =
      .ok [⟨2025, 1, 2⟩, ⟨2025, 1, 3⟩, ⟨2025, 1, 4⟩, ⟨2025, 1, 5⟩] ∧
    (∀ (s e : String) (sd ed : Date) (inc : Inclusive),
      parse_date_str s = .ok sd → parse_date_str e = .ok ed →
      Date.ltb ed sd = true → date_range s e inc = .error .startAfterEnd) := by
  refine ⟨by decide, by decide, by decide, by decide, ?_⟩
  intro s e sd ed inc hs he hlt
  simp only [date_range, hs, he, hlt, bind, Except.bind, if_true]

/-- C5 witness: the start-after-end failure at the claim's own example pair. -/
theorem C5_date_range_inclusivity_witness :
    date_range "2025-01-05" "2025-01-01" .both = .error .startAfterEnd :=
  C5_date_range_inclusivity.2.2.2.2 "2025-01-05" "2025-01-01"
    ⟨2025, 1, 5⟩ ⟨2025, 1, 1⟩ .both (by decide) (by decide) (by decide)

/-- C6: date normalization maps `2025-08-04`, `20250804` and `2025/08/04`
all to `2025-08-04`, fails with the unsupported-date-form error on
`08-04-2025`, and fails likewise on every string accepted by none of the
three representations (ISO with dashes, compact 8-digit, slash-separated). -/
theorem C6_to_date_string :
    to_date_string_str "2025-08-04" = .ok "2025-08-04" ∧
    to_date_string_str "20250804" = .ok "2025-08-04" ∧
    to_date_string_str "2025/08/04" = .ok "2025-08-04" ∧
    to_date_string_str "08-04-2025" = .error .unsupportedDateForm ∧
    (∀ s : String,
      strptime_date (some '-') s = .error .unsupportedDateForm →
      strptime_date none s = .error .unsupportedDateForm →
      strptime_date (some '/') s = .error .unsupportedDateForm →
      to_date_string_str s = .error .unsupportedDateForm) := by
  refine ⟨by decide, by decide, by decide, by decide, ?_⟩
  intro s h1 h2 h3
  simp only [to_date_string_str, h1, h2, h3]

/-- C6 witness: the three-format failure applied to a fresh concrete
string accepted by no format. -/
theorem C6_to_date_string_witness :
    to_date_string_str "not-a-date" = .error .unsupportedDateForm :=
  C6_to_date_string.2.2.2.2 "not-a-date" (by decide) (by decide) (by decide)

end TardisDL

namespace TardisDL

theorem pdiv_seg (p : PPath) {s : String} (h : seg_ok s) :
    pdiv p s = ⟨p.abs, p.parts ++ [s]⟩ :=
  pdiv_single h.1 h.2.1 h.2.2

theorem file_data_eq (sy f : String) :
    (sy ++ "." ++ f ++ ".gz").data =
      sy.data ++ '.' :: (f.data ++ ['.', 'g', 'z']) := by
  show ((sy.data ++ ['.']) ++ f.data) ++ ['.', 'g', 'z'] = _
  simp [List.append_assoc]

theorem file_seg_ok {sy f : String} (hs : '/' ∉ sy.data)
    (hf : '/' ∉ f.data) : seg_ok (sy ++ "." ++ f ++ ".gz") := by
  refine ⟨?_, ?_, ?_⟩
  · intro h
    have hl := congrArg (fun s => s.data.length) h
    simp [file_data_eq] at hl
  · intro h
    have hl := congrArg (fun s => s.data.length) h
    simp [file_data_eq] at hl
    omega
  · rw [file_data_eq]
    intro hm
    rcases List.mem_append.mp hm with h1 | h2
    · exact hs h1
    · rcases List.mem_cons.mp h2 with h3 | h4
      · exact absurd h3 (by decide)
      · rcases List.mem_append.mp h4 with h5 | h6
        · exact hf h5
        · exact absurd h6 (by decide)

theorem get_path_full (M : Manager) (dt da ds sym : String)
    (hda : to_date_string (.str da) = .ok (some ds)) :
    get_path M dt (.str da) (some sym) =
      .ok (pdiv (pdiv (pdiv (pdiv M.root_dir M.exchange) dt) ds)
        (sym ++ "." ++ M.format ++ ".gz")) := by
  simp only [get_path, hda, bind, Except.bind, pure, Except.pure]

theorem full_path_parts (r : PPath) (ex dt da sy f : String)
    (hex : seg_ok ex) (hdt : seg_ok dt) (hda : seg_ok da)
    (hsy : '/' ∉ sy.data) (hf : '/' ∉ f.data) :
    pdiv (pdiv (pdiv (pdiv r ex) dt) da) (sy ++ "." ++ f ++ ".gz") =
      ⟨r.abs, r.parts ++ [ex, dt, da, sy ++ "." ++ f ++ ".gz"]⟩ := by
  rw [pdiv_seg _ hex, pdiv_seg _ hdt, pdiv_seg _ hda,
    pdiv_seg _ (file_seg_ok hsy hf)]
  simp [List.append_assoc]

end TardisDL

namespace TardisDL

/-- C2 counterexample: two well-typed coordinate tuples differing in both
the symbol and the format fields — `("A.b", "c")` against `("A", "b.c")` —
produce the identical full path `/data/deribit/trades/2023-01-01/A.b.c.gz`,
because symbol and format share a single path segment joined by dots. -/
theorem C2_counterexample :
    get_path ⟨parsePath "/data", "deribit", "c"⟩ "trades"
      (.str "2023-01-01") (some "A.b") =
    get_path ⟨parsePath "/data", "deribit", "b.c"⟩ "trades"
      (.str "2023-01-01") (some "A") ∧
    (("A.b", "c") : String × String) ≠ ("A", "b.c") := by
  constructor <;> decide

/-- C2 (amended): the path derivation is a pure function; on the claim's
fixed tuple it returns `/data/deribit/trades/2023-01-01/BTC-PERPETUAL.csv.gz`;
and it is injective over valid tuples — exchange, data type and date being
plain path segments, the date already in normalized form, and symbol and
format containing neither `/` nor `.` — in the sense that equal full paths
force every field (root included) to coincide. -/
theorem C2_path_injectivity
    (r1 r2 : PPath) (ex1 ex2 dt1 dt2 da1 da2 sy1 sy2 f1 f2 : String)
    (hex1 : seg_ok ex1) (hex2 : seg_ok ex2)
    (hdt1 : seg_ok dt1) (hdt2 : seg_ok dt2)
    (hda1 : seg_ok da1) (hda2 : seg_ok da2)
    (hnda1 : to_date_string (.str da1) = .ok (some da1))
    (hnda2 : to_date_string (.str da2) = .ok (some da2))
    (hsy1 : '/' ∉ sy1.data ∧ '.' ∉ sy1.data)
    (hsy2 : '/' ∉ sy2.data ∧ '.' ∉ sy2.data)
    (hf1 : '/' ∉ f1.data ∧ '.' ∉ f1.data)
    (hf2 : '/' ∉ f2.data ∧ '.' ∉ f2.data) :
    ((get_path ⟨parsePath "/data", "deribit", "csv"⟩ "trades"
        (.str "2023-01-01") (some "BTC-PERPETUAL")).map PPath.render =
      .ok "/data/deribit/trades/2023-01-01/BTC-PERPETUAL.csv.gz") ∧
    (get_path ⟨r1, ex1, f1⟩ dt1 (.str da1) (some sy1) =
       get_path ⟨r2, ex2, f2⟩ dt2 (.str da2) (some sy2) →
     (r1 = r2 ∧ ex1 = ex2 ∧ dt1 = dt2 ∧ da1 = da2 ∧ sy1 = sy2 ∧ f1 = f2)) := by
  refine ⟨by decide, ?_⟩
  intro heq
  rw [get_path_full _ _ _ _ _ hnda1, get_path_full _ _ _ _ _ hnda2] at heq
  rw [full_path_parts r1 ex1 dt1 da1 sy1 f1 hex1 hdt1 hda1 hsy1.1 hf1.1,
    full_path_parts r2 ex2 dt2 da2 sy2 f2 hex2 hdt2 hda2 hsy2.1 hf2.1] at heq
  simp only [Except.ok.injEq, PPath.mk.injEq] at heq
  obtain ⟨habs, hparts⟩ := heq
  obtain ⟨hroots, hfields⟩ := List.append_inj' hparts rfl
  simp only [List.cons.injEq, and_true] at hfields
  obtain ⟨hex, hdt, hda, hfile⟩ := hfields
  have hr : r1 = r2 := by
    cases r1
    cases r2
    simp only [PPath.mk.injEq]
    exact ⟨habs, hroots⟩
  have hdata := congrArg String.data hfile
  rw [file_data_eq, file_data_eq] at hdata
  have h1 := append_dot_inj sy1.data sy2.data _ _ hsy1.2 hsy2.2 hdata
  have hsy : sy1 = sy2 := by rw [← mk_data sy1, ← mk_data sy2, h1.1]
  have h2 := append_dot_inj f1.data f2.data ['g', 'z'] ['g', 'z']
    hf1.2 hf2.2 h1.2
  have hf : f1 = f2 := by rw [← mk_data f1, ← mk_data f2, h2.1]
  exact ⟨hr, hex, hdt, hda, hsy, hf⟩

end TardisDL

namespace TardisDL

/-- C2 witness: the amended theorem instantiated at the claim's own tuple,
every validity hypothesis checked concretely. -/
theorem C2_path_injectivity_witness :
    ((get_path ⟨parsePath "/data", "deribit", "csv"⟩ "trades"
        (.str "2023-01-01") (some "BTC-PERPETUAL")).map PPath.render =
      .ok "/data/deribit/trades/2023-01-01/BTC-PERPETUAL.csv.gz") ∧
    (parsePath "/data" = parsePath "/data" ∧ "deribit" = "deribit" ∧
     "trades" = "trades" ∧ "2023-01-01" = "2023-01-01" ∧
     "BTC-PERPETUAL" = "BTC-PERPETUAL" ∧ "csv" = "csv") := by
  have h := C2_path_injectivity (parsePath "/data") (parsePath "/data")
    "deribit" "deribit" "trades" "trades" "2023-01-01" "2023-01-01"
    "BTC-PERPETUAL" "BTC-PERPETUAL" "csv" "csv"
    (by decide) (by decide) (by decide) (by decide) (by decide) (by decide)
    (by decide) (by decide) (by decide) (by decide) (by decide) (by decide)
  exact ⟨h.1, h.2 rfl⟩

/-- C8 (code bug): with the date supplied as a `datetime` (exactly what the
vendor download client passes to the naming callback), `to_date_string`
renders the time part too — `datetime.datetime` is a subclass of
`datetime.date`, so the `date.isoformat()` branch fires first — hence
`get_path` carries the date segment `2023-01-01T00:00:00` while
`default_file_name` produces `2023-01-01`, and root-joined remote name and
local path disagree; with a plain `datetime.date` the two coincide. -/
theorem C8_remote_local_mismatch :
    (default_file_name "deribit" "trades" (.datetimeObj ⟨2023, 1, 1⟩ 0 0 0)
      "BTC-PERPETUAL" "csv" =
      .ok "deribit/trades/2023-01-01/BTC-PERPETUAL.csv.gz") ∧
    ((get_path ⟨parsePath "/data", "deribit", "csv"⟩ "trades"
        (.datetimeObj ⟨2023, 1, 1⟩ 0 0 0) (some "BTC-PERPETUAL")).map
        PPath.render =
      .ok "/data/deribit/trades/2023-01-01T00:00:00/BTC-PERPETUAL.csv.gz") ∧
    ((default_file_name "deribit" "trades" (.datetimeObj ⟨2023, 1, 1⟩ 0 0 0)
        "BTC-PERPETUAL" "csv").map (fun s => pdiv (parsePath "/data") s) ≠
      get_path ⟨parsePath "/data", "deribit", "csv"⟩ "trades"
        (.datetimeObj ⟨2023, 1, 1⟩ 0 0 0) (some "BTC-PERPETUAL")) ∧
    ((default_file_name "deribit" "trades" (.dateObj ⟨2023, 1, 1⟩)
        "BTC-PERPETUAL" "csv").map (fun s => pdiv (parsePath "/data") s) =
      get_path ⟨parsePath "/data", "deribit", "csv"⟩ "trades"
        (.dateObj ⟨2023, 1, 1⟩) (some "BTC-PERPETUAL")) := by
  refine ⟨by decide, by decide, by decide, by decide⟩

theorem list_dates_sorted (fs : FS) (M : Manager) (dt : String)
    (l : List String) (h : list_dates fs M dt = .ok l) :
    l.Sorted (fun a b => strLe a b = true) := by
  rw [list_dates_eq] at h
  cases hfs : fs (pdiv (pdiv M.root_dir M.exchange) dt) with
  | none =>
    rw [hfs] at h
    exact absurd h (by simp)
  | some entries =>
    rw [hfs] at h
    simp only [Except.ok.injEq] at h
    rw [← h]
    exact @List.sorted_insertionSort String (fun a b => strLe a b = true) _
      ⟨fun a b => lexLe_total a.data b.data⟩
      ⟨fun a b c => lexLe_trans a.data b.data c.data⟩ _

/-- C10: with the date omitted, `list_symbols` behaves exactly as when
called with the last entry of the sorted date listing — the
lexicographically greatest available date, as the second conjunct states —
and this requires the listing to be nonempty (the most-recent date being
taken as its last element). -/
theorem C10_default_date_latest (fs : FS) (M : Manager) (dt : String)
    (l : List String) (hl : list_dates fs M dt = .ok l) (hne : l ≠ []) :
    list_symbols fs M dt .none =
      list_symbols fs M dt (.str (l.getLast hne)) ∧
    l.all (fun x => strLe x (l.getLast hne)) = true := by
  constructor
  · simp only [list_symbols, hl, bind, Except.bind,
      List.getLast?_eq_getLast l hne, pure, Except.pure]
  · have hs := list_dates_sorted fs M dt l hl
    rw [List.all_eq_true]
    intro x hx
    exact sorted_le_getLast l hs x hx hne

/-- C10 witness: a tree with the two date directories `2023-01-01` and
`2023-01-02`; the date-omitted listing equals the listing at `2023-01-02`,
the greatest listed date. -/
theorem C10_default_date_latest_witness :
    list_symbols
      (fun p => if p = ⟨true, ["data", "deribit", "trades"]⟩
        then some [("2023-01-01", true), ("2023-01-02", true)]
        else if p = ⟨true, ["data", "deribit", "trades", "2023-01-02"]⟩
        then some [("BTC-PERPETUAL.csv.gz", false)] else none)
      ⟨parsePath "/data", "deribit", "csv"⟩ "trades" .none =
    list_symbols
      (fun p => if p = ⟨true, ["data", "deribit", "trades"]⟩
        then some [("2023-01-01", true), ("2023-01-02", true)]
        else if p = ⟨true, ["data", "deribit", "trades", "2023-01-02"]⟩
        then some [("BTC-PERPETUAL.csv.gz", false)] else none)
      ⟨parsePath "/data", "deribit", "csv"⟩ "trades" (.str "2023-01-02") ∧
    (["2023-01-01", "2023-01-02"].all
      (fun x => strLe x "2023-01-02") = true) :=
  C10_default_date_latest
    (fun p => if p = ⟨true, ["data", "deribit", "trades"]⟩
      then some [("2023-01-01", true), ("2023-01-02", true)]
      else if p = ⟨true, ["data", "deribit", "trades", "2023-01-02"]⟩
      then some [("BTC-PERPETUAL.csv.gz", false)] else none)
    ⟨parsePath "/data", "deribit", "csv"⟩ "trades"
    ["2023-01-01", "2023-01-02"] (by decide) (by decide)

end TardisDL
